import Mathlib

/-!
# Pi2.cpp : numerical integration of 4/(1+x²) over [0,1] split across worker threads

Shallow embedding of `src/Pi2.cpp`.  The C++ `double` arithmetic is modelled
exactly, over `ℚ`.  The `for` loop of `oblicz_sume_czesciowa` is modelled with an
explicit iteration budget (`paliwo`): running out of budget is the error
`Blad.brak_paliwa`, so termination is a theorem and not an assumption.  The
division `4.0 / (1.0 + x * x)` is modelled as a checked division, so that a zero
divisor would surface as `Blad.dzielenie_przez_zero`.  Wall-clock timing and
console output are not modelled.
-/

namespace Pi2

/-- Ways in which a modelled run can fail to produce a value. -/
inductive Blad where
  | brak_paliwa
  | dzielenie_przez_zero
  deriving DecidableEq

/-- Lower integration bound: `const double dolna_granica = 0.0`. -/
def dolna_granica : ℚ := 0

/-- Upper integration bound: `const double gorna_granica = 1.0`. -/
def gorna_granica : ℚ := 1

/-- Checked division: the quotient `a / b`, or an error when the divisor is zero. -/
def podziel (a b : ℚ) : Except Blad ℚ :=
  if b = 0 then .error .dzielenie_przez_zero else .ok (a / b)

/-- The loop `for (double x = poczatek; x < koniec; x += krok) suma_czesciowa += 4.0 / (1.0 + x * x) * krok;`
as a function of the loop state `(x, suma_czesciowa)`; `paliwo` bounds the number
of executions of the body. -/
def petla : ℕ → ℚ → ℚ → ℚ → ℚ → Except Blad ℚ
  | 0, koniec, _, x, suma_czesciowa =>
      if x < koniec then .error .brak_paliwa else .ok suma_czesciowa
  | paliwo + 1, koniec, krok, x, suma_czesciowa =>
      if x < koniec then
        match podziel 4 (1 + x * x) with
        | .error e => .error e
        | .ok q => petla paliwo koniec krok (x + krok) (suma_czesciowa + q * krok)
      else .ok suma_czesciowa

/-- The function `oblicz_sume_czesciowa(poczatek, koniec, krok, wynik)`: the value
it stores into the output slot `wynik`. -/
def oblicz_sume_czesciowa (paliwo : ℕ) (poczatek koniec krok : ℚ) : Except Blad ℚ :=
  petla paliwo koniec krok poczatek 0

/-- Step length: `double krok = (gorna_granica - dolna_granica) / liczba_przedzialow`. -/
def krok_calkowania (liczba_przedzialow : ℕ) : ℚ :=
  (gorna_granica - dolna_granica) / liczba_przedzialow

/-- Width of one worker's range: `(gorna_granica - dolna_granica) / liczba_watkow`. -/
def zakres_na_watek (liczba_watkow : ℕ) : ℚ :=
  (gorna_granica - dolna_granica) / liczba_watkow

/-- Start of worker `i`: `dolna_granica + i * zakres_na_watek`. -/
def start_watku (liczba_watkow i : ℕ) : ℚ :=
  dolna_granica + i * zakres_na_watek liczba_watkow

/-- End of worker `i`: `start_watku + zakres_na_watek`. -/
def koniec_watku (liczba_watkow i : ℕ) : ℚ :=
  start_watku liczba_watkow i + zakres_na_watek liczba_watkow

/-- Worker `i` of a trial: runs `oblicz_sume_czesciowa` on its range and stores the
result into slot `i` of the vector of partial results. -/
def watek (paliwo : ℕ) (krok : ℚ) (liczba_watkow : ℕ) (wyniki_czesciowe : List ℚ) (i : ℕ) :
    Except Blad (List ℚ) :=
  match oblicz_sume_czesciowa paliwo (start_watku liczba_watkow i) (koniec_watku liczba_watkow i) krok with
  | .error e => .error e
  | .ok wynik => .ok (wyniki_czesciowe.set i wynik)

/-- The vector `wyniki_czesciowe(liczba_watkow, 0.0)` after all workers
`i = 0 .. liczba_watkow - 1` were started and joined. -/
def uruchom_watki (paliwo : ℕ) (krok : ℚ) (liczba_watkow : ℕ) : Except Blad (List ℚ) :=
  (List.range liczba_watkow).foldlM (watek paliwo krok liczba_watkow) (List.replicate liczba_watkow 0)

/-- Aggregation loop: `przyblizona_pi += wynik` over the vector, in index order. -/
def agregacja (wyniki_czesciowe : List ℚ) : ℚ :=
  wyniki_czesciowe.foldl (fun przyblizona_pi wynik => przyblizona_pi + wynik) 0

/-- What one trial (one iteration of the outer loop of `main`) computes. -/
structure Wynik_proby where
  liczba_watkow : ℕ
  krok : ℚ
  wyniki_czesciowe : List ℚ
  przyblizona_pi : ℚ
  deriving DecidableEq

/-- One iteration of the outer loop of `main`, for a given number of workers. -/
def proba (paliwo : ℕ) (krok : ℚ) (liczba_watkow : ℕ) : Except Blad Wynik_proby :=
  match uruchom_watki paliwo krok liczba_watkow with
  | .error e => .error e
  | .ok wyniki => .ok ⟨liczba_watkow, krok, wyniki, agregacja wyniki⟩

/-- The estimate of one trial with `liczba_przedzialow` intervals and `liczba_watkow` workers. -/
def przyblizona_pi (paliwo : ℕ) (liczba_przedzialow liczba_watkow : ℕ) : Except Blad ℚ :=
  match proba paliwo (krok_calkowania liczba_przedzialow) liczba_watkow with
  | .error e => .error e
  | .ok w => .ok w.przyblizona_pi

/-- The integrand as the loop body computes it. -/
def f (x : ℚ) : ℚ := 4 / (1 + x * x)

theorem mianownik_ne_zero (x : ℚ) : 1 + x * x ≠ 0 := by
  nlinarith [mul_self_nonneg x]

theorem podziel_f (x : ℚ) : podziel 4 (1 + x * x) = .ok (f x) := by
  simp [podziel, mianownik_ne_zero, f]

theorem petla_brak_paliwa (koniec krok : ℚ) :
    ∀ (paliwo : ℕ) (x suma : ℚ), (∀ k : ℕ, k ≤ paliwo → x + k * krok < koniec) →
      petla paliwo koniec krok x suma = .error .brak_paliwa := by
  intro paliwo
  induction paliwo with
  | zero =>
    intro x suma h
    have hx : x < koniec := by simpa using h 0 le_rfl
    simp [petla, hx]
  | succ p ih =>
    intro x suma h
    have hx : x < koniec := by simpa using h 0 (Nat.zero_le _)
    simp only [petla, hx, if_true, podziel_f]
    apply ih
    intro k hk
    have := h (k + 1) (by omega)
    push_cast at this
    linarith

theorem start_watku_eq (W i : ℕ) : start_watku W i = i / W := by
  unfold start_watku zakres_na_watek gorna_granica dolna_granica
  ring

theorem koniec_watku_eq (W i : ℕ) : koniec_watku W i = (i + 1) / W := by
  unfold koniec_watku zakres_na_watek gorna_granica dolna_granica
  rw [start_watku_eq]
  ring

theorem krok_calkowania_eq (N : ℕ) : krok_calkowania N = 1 / N := by
  unfold krok_calkowania gorna_granica dolna_granica
  ring

/-- Without the precondition the loop does not terminate: for `krok ≤ 0` and
`poczatek < koniec` every iteration budget is exhausted. -/
theorem oblicz_sume_czesciowa_nie_konczy (poczatek koniec krok : ℚ) (hkrok : krok ≤ 0)
    (hzakres : poczatek < koniec) (paliwo : ℕ) :
    oblicz_sume_czesciowa paliwo poczatek koniec krok = .error .brak_paliwa := by
  apply petla_brak_paliwa
  intro k _
  have hk : (0 : ℚ) ≤ k := by positivity
  nlinarith

/-- C7: with `N = 1` and one worker the trial runs the loop body exactly once, at `x = 0`
with quotient `4` and step `1`, and the estimate is exactly `4`. -/
theorem jeden_przedzial :
    krok_calkowania 1 = 1 ∧ start_watku 1 0 = 0 ∧ koniec_watku 1 0 = 1 ∧
    podziel 4 (1 + 0 * 0) = .ok 4 ∧
    oblicz_sume_czesciowa 0 0 1 1 = .error .brak_paliwa ∧
    (∀ paliwo : ℕ, oblicz_sume_czesciowa (paliwo + 1) 0 1 1 = .ok (4 * 1)) ∧
    (∀ paliwo : ℕ, proba (paliwo + 1) (krok_calkowania 1) 1 = .ok ⟨1, 1, [4], 4⟩) ∧
    (∀ paliwo : ℕ, przyblizona_pi (paliwo + 1) 1 1 = .ok 4) := by
  have hk : krok_calkowania 1 = 1 := by norm_num [krok_calkowania_eq]
  have hs : start_watku 1 0 = 0 := by norm_num [start_watku_eq]
  have he : koniec_watku 1 0 = 1 := by norm_num [koniec_watku_eq]
  have hd : podziel 4 (1 + 0 * 0) = .ok 4 := by norm_num [podziel]
  have h1 : ∀ paliwo : ℕ, oblicz_sume_czesciowa (paliwo + 1) 0 1 1 = .ok (4 * 1) := by
    intro paliwo
    cases paliwo <;> norm_num [oblicz_sume_czesciowa, petla, podziel]
  have hp : ∀ paliwo : ℕ, proba (paliwo + 1) (krok_calkowania 1) 1 = .ok ⟨1, 1, [4], 4⟩ := by
    intro paliwo
    have h := h1 paliwo
    norm_num at h
    simp [proba, uruchom_watki, watek, hk, hs, he, h, agregacja, bind, Except.bind, pure,
      Except.pure, List.range_succ]
  refine ⟨hk, hs, he, hd, ?_, h1, hp, ?_⟩
  · norm_num [oblicz_sume_czesciowa, petla]
  · intro paliwo
    simp [przyblizona_pi, hp paliwo]

end Pi2
